import Mathlib

set_option maxRecDepth 100000

/-! Verification development for the Modbus RTU engine in
MODBUS-LIB/Src/Modbus.c (Modbus RTU master and slave library for STM32
with FreeRTOS).

Machine integers are modelled as Nat with explicit reductions modulo 256
or 65536 exactly where the C types (uint8_t, uint16_t) can wrap; int8_t
values (i8lastError, i8state) are modelled as Int through the conversion
i8ofU8.  Fallible executions (reads through a pointer the C code leaves
uninitialized) are modelled with Option, none standing for undefined
behaviour.

The companion header Modbus.h is not among the sources; the constants it
declares (frame field indices, function codes, exception codes, engine
error codes, DB selectors, buffer sizes) are modelled from the
specification and carry a note saying so.  Only their distinctness and
sign are ever relevant to the theorems below. -/

namespace Modbus

/-- Modelled from the spec: frame field indices declared in the absent
header Modbus.h.  The frame layout is ID byte, FUNC byte, big endian
address field (ADD_HI, ADD_LO), big endian quantity field (NB_HI,
NB_LO), byte count (spec section 6). -/
def ID : Nat := 0

/-- Index of the function code byte (see ID). -/
def FUNC : Nat := 1

/-- Index of the high address byte (see ID). -/
def ADD_HI : Nat := 2

/-- Index of the low address byte (see ID). -/
def ADD_LO : Nat := 3

/-- Index of the high quantity byte (see ID). -/
def NB_HI : Nat := 4

/-- Index of the low quantity byte (see ID). -/
def NB_LO : Nat := 5

/-- Index of the byte count field of FC 15 and FC 16 requests (see ID). -/
def BYTE_CNT : Nat := 6

/-- Modelled from the spec: internal length of an exception frame before
the send path appends the CRC (spec section 4.3: length 3). -/
def EXCEPTION_SIZE : Nat := 3

/-- Modelled from the spec: internal length of an echo response before the
CRC (spec section 4.5: echo of request, 6 bytes internal). -/
def RESPONSE_SIZE : Nat := 6

/-- Function code 0x01 Read Coils (spec section 6). -/
def MB_FC_READ_COILS : Nat := 1

/-- Function code 0x02 Read Discrete Inputs (spec section 6). -/
def MB_FC_READ_DISCRETE_INPUT : Nat := 2

/-- Function code 0x03 Read Holding Registers (spec section 6). -/
def MB_FC_READ_REGISTERS : Nat := 3

/-- Function code 0x04 Read Input Registers (spec section 6). -/
def MB_FC_READ_INPUT_REGISTER : Nat := 4

/-- Function code 0x05 Write Single Coil (spec section 6). -/
def MB_FC_WRITE_COIL : Nat := 5

/-- Function code 0x06 Write Single Register (spec section 6). -/
def MB_FC_WRITE_REGISTER : Nat := 6

/-- Function code 0x0F Write Multiple Coils (spec section 6). -/
def MB_FC_WRITE_MULTIPLE_COILS : Nat := 15

/-- Function code 0x10 Write Multiple Registers (spec section 6). -/
def MB_FC_WRITE_MULTIPLE_REGISTERS : Nat := 16

/-- Modelled from the spec: wire exception code 0x01 ILLEGAL_FUNCTION
(spec section 6). -/
def EXC_FUNC_CODE : Nat := 1

/-- Modelled from the spec: wire exception code 0x02 ILLEGAL_DATA_ADDRESS
(spec section 6). -/
def EXC_ADDR_RANGE : Nat := 2

/-- Modelled from the spec: wire exception code 0x03 ILLEGAL_DATA_VALUE
(spec section 6). -/
def EXC_REGS_QUANT : Nat := 3

/-- Modelled from the spec: engine internal error code BUFFER_OVERFLOW
(spec section 6 names the codes; the absent header assigns them distinct
negative enum values, rendered here as Int since they land in the int8_t
field i8lastError; only distinctness and being nonzero matter below). -/
def ERR_BUFF_OVERFLOW : Int := -3

/-- Engine internal error code BAD_CRC (see ERR_BUFF_OVERFLOW). -/
def ERR_BAD_CRC : Int := -4

/-- Engine internal error code EXCEPTION (see ERR_BUFF_OVERFLOW). -/
def ERR_EXCEPTION : Int := -5

/-- Engine internal error code BAD_SIZE (see ERR_BUFF_OVERFLOW). -/
def ERR_BAD_SIZE : Int := -6

/-- Engine internal error code TIMEOUT (see ERR_BUFF_OVERFLOW). -/
def ERR_TIME_OUT : Int := -8

/-- Engine internal error code OK_QUERY (see ERR_BUFF_OVERFLOW). -/
def ERR_OK_QUERY : Int := -10

/-- Value of ERR_BAD_CRC after conversion to the uint8_t return type of
validateRequest and validateAnswer (256 - 4). -/
def ERR_BAD_CRC_u8 : Nat := 252

/-- Value of ERR_EXCEPTION after conversion to the uint8_t return type of
validateAnswer (256 - 5). -/
def ERR_EXCEPTION_u8 : Nat := 251

/-- Value of ERR_TIME_OUT cast to the uint32_t task notification value
(2 to the 32 minus 8); the master loop only tests it for being nonzero. -/
def ERR_TIME_OUT_u32 : Nat := 4294967288

/-- Master state COM_IDLE held in the int8_t field i8state (spec section
4.8). -/
def COM_IDLE : Int := 0

/-- Master state COM_WAITING held in the int8_t field i8state (spec
section 4.8). -/
def COM_WAITING : Int := 1

/-- Modelled from the spec: selector of the coil bank passed to
process_FC1.  The literal comparison Database == 1 inside process_FC1
forces DB_COILS = 1; the other selectors only need to be distinct. -/
def DB_COILS : Nat := 1

/-- Selector of the discrete input bank passed to process_FC1 for FC 2
(see DB_COILS). -/
def DB_INPUT_COILS : Nat := 2

/-- Selector of the holding register bank passed to process_FC3 (see
DB_COILS). -/
def DB_HOLDING_REGISTER : Nat := 3

/-- Selector of the input register bank passed to process_FC3 for FC 4
(see DB_COILS). -/
def DB_INPUT_REGISTERS : Nat := 4

/-- Conversion of a uint8_t value to the int8_t value with the same bit
pattern, the effect in C of storing a uint8_t into an int8_t field. -/
def i8ofU8 (n : Nat) : Int :=
  if n % 256 < 128 then ((n % 256 : Nat) : Int) else ((n % 256 : Nat) : Int) - 256

/-- Macro lowByte: (w) & 0xff, that is w modulo 256. -/
def lowByte (w : Nat) : Nat := w % 256

/-- Macro highByte: (w) >> 8. -/
def highByte (w : Nat) : Nat := w >>> 8

/-- Macro bitRead: (value >> bit) & 0x01. -/
def bitRead (value bit : Nat) : Nat := (value >>> bit) &&& 1

/-- Macro bitSet: value |= 1 << bit. -/
def bitSet (value bit : Nat) : Nat := value ||| (1 <<< bit)

/-- Macro bitClear: value &= complement of (1 << bit); on a Nat this
forces the addressed bit to zero. -/
def bitClear (value bit : Nat) : Nat :=
  if Nat.testBit value bit then value - (1 <<< bit) else value

/-- Macro bitWrite: bitSet when the tested value is truthy, else
bitClear. -/
def bitWrite (value bit : Nat) (b : Bool) : Nat :=
  if b then bitSet value bit else bitClear value bit

/-- Function word: builds a uint16_t from a high and a low byte through
the little endian union bytesFields (W.u8[0] = L, W.u8[1] = H); the
reductions modulo 256 model the uint8_t parameter types. -/
def word (H L : Nat) : Nat := 256 * (H % 256) + L % 256

/-- One shift step of the CRC inner loop of calcCRC: record the low bit,
shift right, and xor the polynomial 0xA001 when the recorded bit was
set. -/
def crcShift (temp : Nat) : Nat :=
  if temp &&& 1 ≠ 0 then (temp >>> 1) ^^^ 0xA001 else temp >>> 1

/-- Function calcCRC: fold of each buffer byte (xor into the accumulator,
then eight crcShift rounds), then the final byte swap
(temp << 8 | temp >> 8) masked to 16 bits; the mask & 0xFFFF is written
as a reduction modulo 65536.  The C length argument u8length is rendered
by passing the relevant prefix of the buffer (List.take at call
sites). -/
def calcCRC (Buffer : List Nat) : Nat :=
  let temp := Buffer.foldl (fun t b => crcShift^[8] (t ^^^ b % 256)) 0xFFFF
  ((temp <<< 8) ||| (temp >>> 8)) % 65536

/-- Modelled from the spec: one reflected shift step of the reference
CRC-16/Modbus (spec section 4.3: polynomial 0xA001, reflected). -/
def refRound (crc : Nat) : Nat :=
  if crc % 2 = 1 then (crc / 2) ^^^ 0xA001 else crc / 2

/-- Modelled from the spec: reference CRC-16/Modbus processing, written
as explicit recursion: initial value 0xFFFF, each byte xored in and
followed by eight reflected shift rounds, no output swap. -/
def refProcess (crc : Nat) : List Nat → Nat
  | [] => crc
  | b :: bs => refProcess (refRound^[8] (crc ^^^ b % 256)) bs

/-- Modelled from the spec: the reference CRC-16/Modbus of a byte
sequence (spec section 4.3, before the output byte swap). -/
def referenceCRC16Modbus (bs : List Nat) : Nat := refProcess 0xFFFF bs

/-- Modelled from the spec: a 16 bit value with its two bytes swapped
(spec section 4.3: byte-swapped on output). -/
def swapBytes (t : Nat) : Nat := 256 * (t % 256) + t / 256 % 256

/-- Ring buffer state: the byte array uxBuffer plus the u8start, u8end,
u8available and overflow fields.  MAX_BUFFER is declared in the absent
header and is kept as the explicit parameter cap of every operation; the
counters are modelled as exact Nat values (in C they are uint8_t, which
never wraps as long as MAX_BUFFER is at most 255). -/
structure RingState where
  buf : List Nat
  u8start : Nat
  u8end : Nat
  u8available : Nat
  overflow : Bool
deriving DecidableEq

/-- Function RingClear: reset the indices, the count and the overflow
flag; the array contents are untouched. -/
def RingClear (st : RingState) : RingState :=
  { st with u8start := 0, u8end := 0, u8available := 0, overflow := false }

/-- A freshly cleared ring whose backing array holds cap zero bytes. -/
def ringInit (cap : Nat) : RingState :=
  { buf := List.replicate cap 0, u8start := 0, u8end := 0, u8available := 0, overflow := false }

/-- Function RingAdd: store the byte at u8end and advance u8end; when the
buffer is full, set overflow and advance u8start (dropping the oldest
byte), otherwise clear overflow and grow u8available. -/
def RingAdd (cap : Nat) (st : RingState) (u8Val : Nat) : RingState :=
  let buf := st.buf.set st.u8end (u8Val % 256)
  let e := (st.u8end + 1) % cap
  if st.u8available = cap then
    { buf := buf, u8start := (st.u8start + 1) % cap, u8end := e,
      u8available := st.u8available, overflow := true }
  else
    { buf := buf, u8start := st.u8start, u8end := e,
      u8available := st.u8available + 1, overflow := false }

/-- Function RingGetNBytes: refuse when the buffer is empty, the request
is zero, or the request exceeds MAX_BUFFER; otherwise copy
min uNumber u8available bytes out from u8start, subtract them from
u8available, clear overflow, and finally call RingClear, which resets
the whole ring.  Returns the new state, the copied bytes and the count
uCounter. -/
def RingGetNBytes (cap : Nat) (st : RingState) (uNumber : Nat) :
    RingState × List Nat × Nat :=
  if st.u8available = 0 ∨ uNumber = 0 then (st, [], 0)
  else if cap < uNumber then (st, [], 0)
  else
    let uCounter := min uNumber st.u8available
    let bytes := (List.range uCounter).map (fun i => st.buf.getD ((st.u8start + i) % cap) 0)
    (RingClear { st with u8start := (st.u8start + uCounter) % cap,
                         u8available := st.u8available - uCounter, overflow := false },
     bytes, uCounter)

/-- Function RingCountBytes: the u8available field. -/
def RingCountBytes (st : RingState) : Nat := st.u8available

/-- An abstract ring buffer operation: a push of one byte (RingAdd) or a
drain request of n bytes (RingGetNBytes). -/
inductive RingOp where
  | push (v : Nat)
  | drain (n : Nat)

/-- One ring buffer operation applied to a state. -/
def ringStep (cap : Nat) (st : RingState) : RingOp → RingState
  | RingOp.push v => RingAdd cap st v
  | RingOp.drain n => (RingGetNBytes cap st n).1

/-- A sequence of ring buffer operations applied from a state. -/
def ringRun (cap : Nat) (st : RingState) (ops : List RingOp) : RingState :=
  ops.foldl (ringStep cap) st

/-- Abstract step mirroring one ring buffer operation on the pair
(pushes since the last successful drain, overflow flag): a push
increments the counter and records whether the ring was full at that
moment; a successful drain (nonempty ring, nonzero request not above
capacity) resets both. -/
def ringSpecStep (cap : Nat) : Nat × Bool → RingOp → Nat × Bool
  | (p, _), RingOp.push _ => (p + 1, decide (cap ≤ p))
  | (p, o), RingOp.drain n =>
      if p ≠ 0 ∧ n ≠ 0 ∧ n ≤ cap then (0, false) else (p, o)

/-- Abstract account of a ring buffer operation sequence started from a
cleared ring. -/
def ringSpec (cap : Nat) (ops : List RingOp) : Nat × Bool :=
  ops.foldl (ringSpecStep cap) (0, false)

/-- Array fctsupported: the eight supported function codes. -/
def fctsupported : List Nat :=
  [MB_FC_READ_COILS, MB_FC_READ_DISCRETE_INPUT, MB_FC_READ_REGISTERS,
   MB_FC_READ_INPUT_REGISTER, MB_FC_WRITE_COIL, MB_FC_WRITE_REGISTER,
   MB_FC_WRITE_MULTIPLE_COILS, MB_FC_WRITE_MULTIPLE_REGISTERS]

/-- Function validateRequest on a received frame f (the u8Buffer prefix of
length u8BufferSize).  Returns the uint8_t result code together with the
number of u16errCnt increments the function performs itself (the CRC and
function code failures increment the counter inside validateRequest; the
range and quantity failures return without touching it).  Frame bytes
are read with getD, out of range reads yielding 0; the combination
(buf[n-2] << 8) | buf[n-1] of the two uint8_t CRC bytes is written
arithmetically since the shifted fields are disjoint.  The uint16_t
store u16NRegs = u16NRegs*2 + 5 in the register branch is reduced modulo
65536. -/
def validateRequest (coilsSize hrSize : Nat) (f : List Nat) : Nat × Nat :=
  let n := f.length
  let u16MsgCRC := f.getD (n - 2) 0 * 256 + f.getD (n - 1) 0
  if calcCRC (f.take (n - 2)) ≠ u16MsgCRC then (ERR_BAD_CRC_u8, 1)
  else if ¬ fctsupported.contains (f.getD FUNC 0) then (EXC_FUNC_CODE, 1)
  else
    let fc := f.getD FUNC 0
    if fc = MB_FC_READ_COILS ∨ fc = MB_FC_READ_DISCRETE_INPUT ∨
       fc = MB_FC_WRITE_MULTIPLE_COILS then
      let u16AdRegs := word (f.getD ADD_HI 0) (f.getD ADD_LO 0) / 16
      let u16NRegs := word (f.getD NB_HI 0) (f.getD NB_LO 0) / 16 +
        (if word (f.getD NB_HI 0) (f.getD NB_LO 0) % 16 ≠ 0 then 1 else 0)
      if coilsSize < u16AdRegs + u16NRegs then (EXC_ADDR_RANGE, 0)
      else
        let u16NRegs2 := word (f.getD NB_HI 0) (f.getD NB_LO 0) / 8 +
          (if word (f.getD NB_HI 0) (f.getD NB_LO 0) % 8 ≠ 0 then 1 else 0) + 5
        if 256 < u16NRegs2 then (EXC_REGS_QUANT, 0) else (0, 0)
    else if fc = MB_FC_WRITE_COIL then
      let u16AdRegs := word (f.getD ADD_HI 0) (f.getD ADD_LO 0) / 16 +
        (if word (f.getD ADD_HI 0) (f.getD ADD_LO 0) % 16 ≠ 0 then 1 else 0)
      if coilsSize < u16AdRegs then (EXC_ADDR_RANGE, 0) else (0, 0)
    else if fc = MB_FC_WRITE_REGISTER then
      if hrSize < word (f.getD ADD_HI 0) (f.getD ADD_LO 0) then (EXC_ADDR_RANGE, 0)
      else (0, 0)
    else if fc = MB_FC_READ_REGISTERS ∨ fc = MB_FC_READ_INPUT_REGISTER ∨
            fc = MB_FC_WRITE_MULTIPLE_REGISTERS then
      let u16AdRegs := word (f.getD ADD_HI 0) (f.getD ADD_LO 0)
      let u16NRegs := word (f.getD NB_HI 0) (f.getD NB_LO 0)
      if hrSize < u16AdRegs + u16NRegs then (EXC_ADDR_RANGE, 0)
      else if 256 < (u16NRegs * 2 + 5) % 65536 then (EXC_REGS_QUANT, 0)
      else (0, 0)
    else (0, 0)

/-- Function validateAnswer on the master receive buffer: CRC check, then
the exception bit of the function byte, then membership of the function
code among the supported codes.  Same return convention as
validateRequest (uint8_t code, u16errCnt increments performed). -/
def validateAnswer (f : List Nat) : Nat × Nat :=
  let n := f.length
  let u16MsgCRC := f.getD (n - 2) 0 * 256 + f.getD (n - 1) 0
  if calcCRC (f.take (n - 2)) ≠ u16MsgCRC then (ERR_BAD_CRC_u8, 1)
  else if (f.getD FUNC 0) &&& 0x80 ≠ 0 then (ERR_EXCEPTION_u8, 1)
  else if ¬ fctsupported.contains (f.getD FUNC 0) then (EXC_FUNC_CODE, 1)
  else (0, 0)

/-- Function buildException: keep the original function byte, write the
station id at ID, the function byte plus 0x80 (a uint8_t store, hence
the reduction modulo 256) at FUNC, the exception code at offset 2.  The
new u8BufferSize is EXCEPTION_SIZE. -/
def buildException (u8id u8exception : Nat) (f : List Nat) : List Nat :=
  let u8func := f.getD FUNC 0
  ((f.set ID u8id).set FUNC ((u8func + 0x80) % 256)).set 2 u8exception

/-- Function sendTxBuffer, transmitted bytes only: the CRC of the first
u8BufferSize buffer bytes is appended high return byte first
(u16crc >> 8, then u16crc & 0x00ff) and the first u8BufferSize + 2 bytes
go to the wire.  The state effects (u8BufferSize reset to 0, u16OutCnt
increment) are applied by the callers below. -/
def sendTxBuffer (f : List Nat) (u8BufferSize : Nat) : List Nat :=
  let u16crc := calcCRC (f.take u8BufferSize)
  f.take u8BufferSize ++ [u16crc >>> 8, u16crc % 256]

/-- Function process_FC1 (slave side of FC 1 and FC 2): pack the
requested coil bits into the response.  The register source u16regs is a
local pointer that the code assigns only when Database == 1 (the coil
bank); for any other selector the pointer stays uninitialized, so a
request that makes the loop read it is undefined behaviour, modelled as
none.  Returns the transmitted wire frame and the int8_t return value
u8CopyBufferSize. -/
def process_FC1 (Database : Nat) (regsCoils : List Nat) (f : List Nat) :
    Option (List Nat × Nat) :=
  let u16StartCoil := word (f.getD ADD_HI 0) (f.getD ADD_LO 0)
  let u16Coilno := word (f.getD NB_HI 0) (f.getD NB_LO 0)
  let u8bytesno := (u16Coilno / 8 + if u16Coilno % 8 ≠ 0 then 1 else 0) % 256
  let f1 := (f.set ADD_HI u8bytesno).set (ADD_LO + u8bytesno - 1) 0
  let u16regs? : Option (List Nat) := if Database = 1 then some regsCoils else none
  match u16regs? with
  | some u16regs =>
      let r := (List.range u16Coilno).foldl
        (fun (acc : List Nat × Nat × Nat) u16currentCoil =>
          let u16coil := (u16StartCoil + u16currentCoil) % 65536
          let u16currentRegister := u16coil / 16
          let u8currentBit := u16coil % 16
          let fr := acc.1.set acc.2.1
            (bitWrite (acc.1.getD acc.2.1 0) acc.2.2
              (bitRead (u16regs.getD u16currentRegister 0) u8currentBit == 1))
          if acc.2.2 + 1 > 7 then (fr, acc.2.1 + 1, 0) else (fr, acc.2.1, acc.2.2 + 1))
        (f1, ADD_LO, 0)
      let u8BufferSize := if u16Coilno % 8 ≠ 0 then r.2.1 + 1 else r.2.1
      some (sendTxBuffer r.1 u8BufferSize, (u8BufferSize + 2) % 256)
  | none =>
      if u16Coilno = 0 then
        some (sendTxBuffer f1 ADD_LO, (ADD_LO + 2) % 256)
      else none

/-- Response payload of process_FC3: the loop from u16StartAdd over
u8regsno registers appending the high then the low byte of each
register, written as recursion on the count. -/
def regPairs (u16regs : List Nat) (start : Nat) : Nat → List Nat
  | 0 => []
  | n + 1 =>
      highByte (u16regs.getD start 0) :: lowByte (u16regs.getD start 0) ::
        regPairs u16regs (start + 1) n

/-- Function process_FC3 (slave side of FC 3 and FC 4): byte count at
offset 2 (a uint8_t store of u8regsno * 2), then the big endian register
words.  The quantity is truncated to uint8_t by the declaration
uint8_t u8regsno = word(NB_HI, NB_LO).  The register source is the
holding bank for DB_HOLDING_REGISTER, the input bank for
DB_INPUT_REGISTERS, and an uninitialized pointer otherwise (undefined
behaviour, none, as soon as the loop reads it).  Returns the transmitted
wire frame and the int8_t return value. -/
def process_FC3 (Database : Nat) (regsHR regsRO : List Nat) (f : List Nat) :
    Option (List Nat × Nat) :=
  let u16StartAdd := word (f.getD ADD_HI 0) (f.getD ADD_LO 0)
  let u8regsno := word (f.getD NB_HI 0) (f.getD NB_LO 0) % 256
  let f1 := f.set 2 (u8regsno * 2 % 256)
  let u16regs? : Option (List Nat) :=
    if Database = DB_HOLDING_REGISTER then some regsHR
    else if Database = DB_INPUT_REGISTERS then some regsRO
    else none
  match u16regs? with
  | some u16regs =>
      some (sendTxBuffer (f1.take 3 ++ regPairs u16regs u16StartAdd u8regsno)
              (3 + 2 * u8regsno),
            (3 + 2 * u8regsno + 2) % 256)
  | none =>
      if u8regsno = 0 then some (sendTxBuffer (f1.take 3) 3, (3 + 2) % 256)
      else none

/-- Function process_FC5 (write single coil): write the bit addressed by
the request into the coil bank (set when NB_HI is 0xff, clear
otherwise), then echo the first 6 request bytes.  Returns the new coil
bank, the wire frame and the int8_t return value. -/
def process_FC5 (regsCoils : List Nat) (f : List Nat) :
    List Nat × List Nat × Nat :=
  let u16coil := word (f.getD ADD_HI 0) (f.getD ADD_LO 0)
  let u16currentRegister := u16coil / 16
  let u8currentBit := u16coil % 16
  let regs := regsCoils.set u16currentRegister
    (bitWrite (regsCoils.getD u16currentRegister 0) u8currentBit
      (f.getD NB_HI 0 == 0xff))
  (regs, sendTxBuffer f 6, (6 + 2) % 256)

/-- Function process_FC6 (write single register): store the value word at
the addressed holding register, then echo the first RESPONSE_SIZE
request bytes. -/
def process_FC6 (regsHR : List Nat) (f : List Nat) :
    List Nat × List Nat × Nat :=
  let u16add := word (f.getD ADD_HI 0) (f.getD ADD_LO 0)
  let u16val := word (f.getD NB_HI 0) (f.getD NB_LO 0)
  (regsHR.set u16add u16val, sendTxBuffer f RESPONSE_SIZE, (RESPONSE_SIZE + 2) % 256)

/-- Function process_FC15 (write multiple coils): walk the requested coil
range copying bits out of the frame bytes starting at index 7, then echo
the first 6 request bytes.  The frame byte cursor u8frameByte is a
uint8_t, hence the reduction modulo 256 on its increment. -/
def process_FC15 (regsCoils : List Nat) (f : List Nat) :
    List Nat × List Nat × Nat :=
  let u16StartCoil := word (f.getD ADD_HI 0) (f.getD ADD_LO 0)
  let u16Coilno := word (f.getD NB_HI 0) (f.getD NB_LO 0)
  let r := (List.range u16Coilno).foldl
    (fun (acc : List Nat × Nat × Nat) u16currentCoil =>
      let u16coil := (u16StartCoil + u16currentCoil) % 65536
      let u16currentRegister := u16coil / 16
      let u8currentBit := u16coil % 16
      let bTemp := bitRead (f.getD acc.2.1 0) acc.2.2 == 1
      let regs := acc.1.set u16currentRegister
        (bitWrite (acc.1.getD u16currentRegister 0) u8currentBit bTemp)
      if acc.2.2 + 1 > 7 then (regs, (acc.2.1 + 1) % 256, 0)
      else (regs, acc.2.1, acc.2.2 + 1))
    (regsCoils, 7, 0)
  (r.1, sendTxBuffer f 6, (6 + 2) % 256)

/-- Function process_FC16 (write multiple registers): store each value
word from the payload into the holding bank, overwrite the quantity
field of the header with 0 and the low count (uint8_t store), and echo
the first RESPONSE_SIZE bytes of the modified buffer. -/
def process_FC16 (regsHR : List Nat) (f : List Nat) :
    List Nat × List Nat × Nat :=
  let u16StartAdd := f.getD ADD_HI 0 % 256 * 256 + f.getD ADD_LO 0 % 256
  let u16regsno := f.getD NB_HI 0 % 256 * 256 + f.getD NB_LO 0 % 256
  let f1 := (f.set NB_HI 0).set NB_LO (u16regsno % 256)
  let regs := (List.range u16regsno).foldl
    (fun (acc : List Nat) i =>
      acc.set (u16StartAdd + i)
        (word (f1.getD (BYTE_CNT + 1 + i * 2) 0) (f1.getD (BYTE_CNT + 2 + i * 2) 0)))
    regsHR
  (regs, sendTxBuffer f1 RESPONSE_SIZE, (RESPONSE_SIZE + 2) % 256)

/-- Function get_FC1 (master side of FC 1 and FC 2): unpack the byte
count frame[2] payload bytes into the bound coil buffer, merging one
byte into the high or low half of the target word depending on
parity. -/
def get_FC1 (f : List Nat) (u16regsCoils : List Nat) : List Nat :=
  (List.range (f.getD 2 0)).foldl
    (fun regs i =>
      if i % 2 = 1 then
        regs.set (i / 2) (word (f.getD (i + 3) 0) (lowByte (regs.getD (i / 2) 0)))
      else
        regs.set (i / 2) (word (highByte (regs.getD (i / 2) 0)) (f.getD (i + 3) 0)))
    u16regsCoils

/-- Function get_FC3 (master side of FC 3 and FC 4): read frame[2] / 2
big endian words from offset 3 into the bound holding buffer. -/
def get_FC3 (f : List Nat) (u16regsHR : List Nat) : List Nat :=
  (List.range (f.getD 2 0 / 2)).foldl
    (fun regs i =>
      regs.set i (word (f.getD (3 + 2 * i) 0) (f.getD (3 + 2 * i + 1) 0)))
    u16regsHR

/-- Slave instance state: the fields of modbusHandler_t that the slave
loop reads or writes.  Register banks are the borrowed host arrays
(absent banks are empty lists); the ring buffer itself is abstracted by
feeding each loop iteration the drained bytes and the overflow flag. -/
structure SlaveState where
  u8id : Nat
  regsHR : List Nat
  regsRO : List Nat
  regsCoils : List Nat
  u16regCoils_size : Nat
  u16regHR_size : Nat
  u8Buffer : List Nat
  u8BufferSize : Nat
  i8lastError : Int
  i8state : Int
  u16errCnt : Nat
  u16InCnt : Nat
  u16OutCnt : Nat
deriving DecidableEq

/-- One iteration of the slave worker loop StartTaskModbusSlave, from the
task notification onwards: overflow and size screening, station id
check, validateRequest, exception build and send, then dispatch on the
function code.  The parameters overflow and rx are the state the ring
buffer hands to getRxBuffer (its overflow flag and its drained
contents).  The result is none when the iteration runs into undefined
behaviour (the uninitialized register pointer of process_FC1 or
process_FC3), and otherwise the new state together with the transmitted
wire frame, if any. -/
def slaveStep (st0 : SlaveState) (overflow : Bool) (rx : List Nat) :
    Option (SlaveState × Option (List Nat)) :=
  let st := { st0 with i8lastError := 0 }
  if overflow then
    some ({ st with i8lastError := ERR_BUFF_OVERFLOW,
                    u16errCnt := st.u16errCnt + 1 }, none)
  else
    let st := { st with u8Buffer := rx, u8BufferSize := rx.length,
                        u16InCnt := st.u16InCnt + 1 }
    if rx.length < 7 then
      some ({ st with i8lastError := ERR_BAD_SIZE,
                      u16errCnt := st.u16errCnt + 1 }, none)
    else if rx.getD ID 0 ≠ st.u8id then
      some (st, none)
    else
      let v := validateRequest st.u16regCoils_size st.u16regHR_size rx
      let st := { st with u16errCnt := st.u16errCnt + v.2 }
      if 0 < v.1 then
        if (v.1 : Int) ≠ ERR_TIME_OUT then
          some ({ st with i8lastError := i8ofU8 v.1, u8BufferSize := 0,
                          u16OutCnt := st.u16OutCnt + 1 },
                some (sendTxBuffer (buildException st.u8id v.1 rx) EXCEPTION_SIZE))
        else
          some ({ st with i8lastError := i8ofU8 v.1 }, none)
      else
        let fc := rx.getD FUNC 0
        if fc = MB_FC_READ_COILS ∨ fc = MB_FC_READ_DISCRETE_INPUT then
          match process_FC1 (if fc = MB_FC_READ_COILS then DB_COILS else DB_INPUT_COILS)
                  st.regsCoils rx with
          | none => none
          | some r =>
              some ({ st with i8state := i8ofU8 r.2, u8BufferSize := 0,
                              u16OutCnt := st.u16OutCnt + 1 }, some r.1)
        else if fc = MB_FC_READ_REGISTERS ∨ fc = MB_FC_READ_INPUT_REGISTER then
          match process_FC3 (if fc = MB_FC_READ_REGISTERS then DB_HOLDING_REGISTER
                             else DB_INPUT_REGISTERS) st.regsHR st.regsRO rx with
          | none => none
          | some r =>
              some ({ st with i8state := i8ofU8 r.2, u8BufferSize := 0,
                              u16OutCnt := st.u16OutCnt + 1 }, some r.1)
        else if fc = MB_FC_WRITE_COIL then
          let r := process_FC5 st.regsCoils rx
          some ({ st with regsCoils := r.1, i8state := i8ofU8 r.2.2,
                          u8BufferSize := 0, u16OutCnt := st.u16OutCnt + 1 },
                some r.2.1)
        else if fc = MB_FC_WRITE_REGISTER then
          let r := process_FC6 st.regsHR rx
          some ({ st with regsHR := r.1, i8state := i8ofU8 r.2.2,
                          u8BufferSize := 0, u16OutCnt := st.u16OutCnt + 1 },
                some r.2.1)
        else if fc = MB_FC_WRITE_MULTIPLE_COILS then
          let r := process_FC15 st.regsCoils rx
          some ({ st with regsCoils := r.1, i8state := i8ofU8 r.2.2,
                          u8BufferSize := 0, u16OutCnt := st.u16OutCnt + 1 },
                some r.2.1)
        else if fc = MB_FC_WRITE_MULTIPLE_REGISTERS then
          let r := process_FC16 st.regsHR rx
          some ({ st with regsHR := r.1, i8state := i8ofU8 r.2.2,
                          u8BufferSize := 0, u16OutCnt := st.u16OutCnt + 1 },
                some r.2.1)
        else
          some (st, none)

/-- Master instance state: the fields of modbusHandler_t the master loop
touches after a notification arrives.  regsCoils and regsHR stand for
the caller buffers bound by SendQuery. -/
structure MasterState where
  u8Buffer : List Nat
  u8BufferSize : Nat
  regsCoils : List Nat
  regsHR : List Nat
  i8state : Int
  i8lastError : Int
  u16errCnt : Nat
  u16InCnt : Nat
deriving DecidableEq

/-- Parse dispatch of the master loop: FC 1 and 2 go through get_FC1 into
the bound coil buffer, FC 3 and 4 through get_FC3 into the bound holding
buffer; the write acknowledgements carry no payload. -/
def masterDispatch (f regsCoils regsHR : List Nat) : List Nat × List Nat :=
  let fc := f.getD FUNC 0
  if fc = MB_FC_READ_COILS ∨ fc = MB_FC_READ_DISCRETE_INPUT then
    (get_FC1 f regsCoils, regsHR)
  else if fc = MB_FC_READ_REGISTERS ∨ fc = MB_FC_READ_INPUT_REGISTER then
    (regsCoils, get_FC3 f regsHR)
  else (regsCoils, regsHR)

/-- One iteration of the master worker loop StartTaskModbusMaster from
ulTaskNotifyTake onwards: any nonzero notification value is the timeout
path; value 0 is the T3.5 path, which drains the ring (on ring overflow
getRxBuffer clears the ring and leaves the receive buffer and
u8BufferSize stale), screens the size, runs validateAnswer, parses the
payload and notifies the originator.  Returns the new state and the
int8_t value posted to the originator task, if any. -/
def masterStep (st0 : MasterState) (ulNotificationValue : Nat) (overflow : Bool)
    (rx : List Nat) : MasterState × Option Int :=
  let st := { st0 with i8lastError := 0 }
  if ulNotificationValue ≠ 0 then
    ({ st with i8state := COM_IDLE, i8lastError := ERR_TIME_OUT,
               u16errCnt := st.u16errCnt + 1 }, some ERR_TIME_OUT)
  else
    let st := if overflow then st
              else { st with u8Buffer := rx, u8BufferSize := rx.length,
                             u16InCnt := st.u16InCnt + 1 }
    if st.u8BufferSize < 6 then
      ({ st with i8state := COM_IDLE, i8lastError := ERR_BAD_SIZE,
                 u16errCnt := st.u16errCnt + 1 }, some ERR_BAD_SIZE)
    else
      let v := validateAnswer st.u8Buffer
      let st := { st with u16errCnt := st.u16errCnt + v.2 }
      if v.1 ≠ 0 then
        ({ st with i8state := COM_IDLE, i8lastError := i8ofU8 v.1 },
         some (i8ofU8 v.1))
      else
        let banks := masterDispatch st.u8Buffer st.regsCoils st.regsHR
        ({ st with regsCoils := banks.1, regsHR := banks.2, i8state := COM_IDLE,
                   i8lastError := 0 }, some ERR_OK_QUERY)

/-- Payload of the CRC test vector of spec section 8. -/
def crcExample : List Nat := [0x01, 0x04, 0x02, 0xFF, 0xFF]

/-- FC 6 request to station 0x11 writing register 8 (one past a bank of
8 registers), with its wire CRC bytes. -/
def reqFC6past : List Nat := [0x11, 0x06, 0x00, 0x08, 0x00, 0x00, 0x0A, 0x98]

/-- FC 5 request to station 0x11 writing coil 16 (one past a bank of one
16 bit coil register), with its wire CRC bytes. -/
def reqFC5past : List Nat := [0x11, 0x05, 0x00, 0x10, 0xFF, 0x00, 0x8F, 0x6F]

/-- FC 3 request to station 0x11 reading registers 0 to 4 (one past a
bank of 4 registers), with its wire CRC bytes. -/
def reqFC3over : List Nat := [0x11, 0x03, 0x00, 0x00, 0x00, 0x05, 0x87, 0x59]

/-- Request to station 0x11 carrying the unsupported function byte 0x85,
with its wire CRC bytes. -/
def reqBadFunc : List Nat := [0x11, 0x85, 0x00, 0x00, 0x00, 0x00, 0xCE, 0x84]

/-- FC 2 request to station 0x11 reading one discrete input, with its
wire CRC bytes. -/
def reqFC2one : List Nat := [0x11, 0x02, 0x00, 0x00, 0x00, 0x01, 0xBB, 0x5A]

/-- FC 3 response frame carrying the single register value 0x002A, with
its wire CRC bytes (spec section 8 scenario 5). -/
def respFC3one : List Nat := [0x11, 0x03, 0x02, 0x00, 0x2A, 0xF8, 0x58]

/-- An eight byte frame addressed to station 0x22. -/
def wrongIdFrame : List Nat := [0x22, 0x03, 0x00, 0x00, 0x00, 0x01, 0x00, 0x00]

/-- Slave fixture: station 0x11, four holding registers, two coil
registers, a nonzero error counter. -/
def testSlave1 : SlaveState :=
  { u8id := 0x11, regsHR := [0, 0, 0, 0], regsRO := [], regsCoils := [0, 0],
    u16regCoils_size := 16, u16regHR_size := 4, u8Buffer := [], u8BufferSize := 0,
    i8lastError := 0, i8state := 0, u16errCnt := 7, u16InCnt := 0, u16OutCnt := 0 }

/-- Slave fixture: station 0x11 with a nonzero recorded last error. -/
def testSlave0 : SlaveState :=
  { testSlave1 with i8lastError := ERR_BAD_SIZE }

/-- Ring buffer operation sequence used to instantiate the ring
invariant: five pushes into a ring of capacity four, a partial drain of
two bytes, one more push. -/
def ringWitnessOps : List RingOp :=
  [RingOp.push 1, RingOp.push 2, RingOp.push 3, RingOp.push 4,
   RingOp.push 5, RingOp.drain 2, RingOp.push 6]

/-- Master fixture: waiting for a response, empty buffers. -/
def testMaster0 : MasterState :=
  { u8Buffer := [], u8BufferSize := 0, regsCoils := [], regsHR := [0],
    i8state := COM_WAITING, i8lastError := 0, u16errCnt := 0, u16InCnt := 0 }

/-! Helper lemmas. -/

theorem crcShift_eq_refRound (t : Nat) : crcShift t = refRound t := by
  unfold crcShift refRound
  rw [Nat.and_one_is_mod, Nat.shiftRight_one]
  rcases Nat.mod_two_eq_zero_or_one t with h | h <;> simp [h]

theorem refProcess_eq_foldl (bs : List Nat) :
    ∀ t, refProcess t bs = bs.foldl (fun t b => crcShift^[8] (t ^^^ b % 256)) t := by
  have h8 : crcShift^[8] = refRound^[8] := by
    have h0 : crcShift = refRound := funext crcShift_eq_refRound
    rw [h0]
  induction bs with
  | nil => intro t; rfl
  | cons b bs ih =>
      intro t
      rw [List.foldl_cons]
      show refProcess (refRound^[8] (t ^^^ b % 256)) bs = _
      rw [ih, h8]

theorem crcShift_lt (t : Nat) (h : t < 65536) : crcShift t < 65536 := by
  unfold crcShift
  have hs : t >>> 1 < 65536 := by
    rw [Nat.shiftRight_one]
    omega
  split
  · have h1 : (65536 : Nat) = 2 ^ 16 := by norm_num
    rw [h1] at hs ⊢
    exact Nat.bitwise_lt hs (by norm_num)
  · exact hs

theorem crcShift_iter_lt (n t : Nat) (h : t < 65536) : crcShift^[n] t < 65536 := by
  induction n generalizing t with
  | zero => simpa using h
  | succ n ih =>
      rw [Function.iterate_succ_apply]
      exact ih _ (crcShift_lt t h)

theorem crcFold_lt (bs : List Nat) :
    ∀ t, t < 65536 →
      bs.foldl (fun t b => crcShift^[8] (t ^^^ b % 256)) t < 65536 := by
  induction bs with
  | nil => intro t h; simpa using h
  | cons b bs ih =>
      intro t h
      rw [List.foldl_cons]
      apply ih
      apply crcShift_iter_lt
      have h1 : (65536 : Nat) = 2 ^ 16 := by norm_num
      rw [h1]
      exact Nat.bitwise_lt (h1 ▸ h) (by omega)

theorem lor_mul_two_pow_add (k : Nat) :
    ∀ x y : Nat, y < 2 ^ k → (x * 2 ^ k) ||| y = x * 2 ^ k + y := by
  induction k with
  | zero =>
      intro x y hy
      interval_cases y
      simp
  | succ k ih =>
      intro x y hy
      rw [← Nat.bit_decomp y]
      have hm : y.div2 < 2 ^ k := by
        rw [Nat.div2_val]
        have : y < 2 ^ k * 2 := by rw [← Nat.pow_succ]; exact hy
        omega
      have hx : x * 2 ^ (k + 1) = Nat.bit false (x * 2 ^ k) := by
        rw [Nat.bit_val]
        simp [Nat.pow_succ]
        ring
      rw [hx, Nat.lor_bit, Bool.false_or, ih _ _ hm, Nat.bit_val, Nat.bit_val,
        Nat.bit_val]
      simp only [Bool.toNat_false]
      omega

theorem byteSwap_bridge (a : Nat) (h : a < 65536) :
    ((a <<< 8) ||| (a >>> 8)) % 65536 = swapBytes a := by
  have h1 : a <<< 8 = a * 2 ^ 8 := Nat.shiftLeft_eq a 8
  have h2 : a >>> 8 = a / 256 := by
    rw [Nat.shiftRight_eq_div_pow]
  have h3 : a / 256 < 2 ^ 8 := by omega
  rw [h1, h2, lor_mul_two_pow_add 8 a (a / 256) h3]
  have h4 : (2 : Nat) ^ 8 = 256 := by norm_num
  rw [h4]
  unfold swapBytes
  have h5 : a * 256 + a / 256 = (256 * (a % 256) + a / 256) + 65536 * (a / 256) := by
    omega
  have h6 : 256 * (a % 256) + a / 256 < 65536 := by omega
  have h7 : a / 256 % 256 = a / 256 := Nat.mod_eq_of_lt (by omega)
  rw [h5, Nat.add_mul_mod_self_left, Nat.mod_eq_of_lt h6, h7]

/-- C1: for every byte sequence b, calcCRC b is the reference
CRC-16/Modbus of b (polynomial 0xA001, initial value 0xFFFF, reflected)
with its two bytes swapped; on the frame 01 04 02 FF FF the reference
CRC is 0x80B8 and the send path appends its low byte 0xB8 first and its
high byte 0x80 last, so the CRC reaches the wire low byte first. -/
theorem calcCRC_is_swapped_reference :
    (∀ b : List Nat, calcCRC b = swapBytes (referenceCRC16Modbus b)) ∧
    referenceCRC16Modbus crcExample = 0x80B8 ∧
    sendTxBuffer crcExample 5 = crcExample ++ [lowByte 0x80B8, highByte 0x80B8] := by
  refine ⟨?_, by decide, by decide⟩
  intro b
  have hlt : b.foldl (fun t c => crcShift^[8] (t ^^^ c % 256)) 0xFFFF < 65536 :=
    crcFold_lt b 0xFFFF (by norm_num)
  unfold calcCRC referenceCRC16Modbus
  rw [refProcess_eq_foldl]
  exact byteSwap_bridge _ hlt

/-- C2: validateRequest accepts requests one past the configured bank.
The FC 6 request writing register index 8 against a bank of 8 holding
registers and the FC 5 request writing coil 16 against a bank of one
coil register both return 0 instead of the ILLEGAL_DATA_ADDRESS the
claim requires (the code compares with strictly-greater and with
ceil(start/16) respectively); process_FC6 then addresses one register
past the bank, so the modelled write is lost. -/
theorem validateRequest_accepts_one_past_bank :
    validateRequest 16 8 reqFC6past = (0, 0) ∧
    validateRequest 1 8 reqFC5past = (0, 0) ∧
    (process_FC6 (List.replicate 8 0) reqFC6past).1 = List.replicate 8 0 := by
  refine ⟨by decide, by decide, by decide⟩

/-- C3 counterexample: from a cleared ring of capacity 256, pushing two
bytes and then draining one byte succeeds (one byte is returned) but
leaves zero bytes available instead of the one byte the claim requires:
RingGetNBytes finishes with RingClear, so a successful drain empties
the ring rather than decrementing the count by the number drained. -/
theorem ring_partial_drain_counterexample :
    (RingAdd 256 (RingAdd 256 (ringInit 256) 1) 2).u8available = 2 ∧
    (RingGetNBytes 256 (RingAdd 256 (RingAdd 256 (ringInit 256) 1) 2) 1).2.2 = 1 ∧
    (RingGetNBytes 256 (RingAdd 256 (RingAdd 256 (ringInit 256) 1) 2) 1).1.u8available
      = 0 := by
  refine ⟨by decide, by decide, by decide⟩

theorem ringSpecStep_drain_pos (cap p : Nat) (o : Bool) (n : Nat)
    (h : p ≠ 0 ∧ n ≠ 0 ∧ n ≤ cap) :
    ringSpecStep cap (p, o) (RingOp.drain n) = (0, false) := by
  show (if p ≠ 0 ∧ n ≠ 0 ∧ n ≤ cap then ((0 : Nat), false) else (p, o)) = (0, false)
  rw [if_pos h]

theorem ringSpecStep_drain_neg (cap p : Nat) (o : Bool) (n : Nat)
    (h : ¬ (p ≠ 0 ∧ n ≠ 0 ∧ n ≤ cap)) :
    ringSpecStep cap (p, o) (RingOp.drain n) = (p, o) := by
  show (if p ≠ 0 ∧ n ≠ 0 ∧ n ≤ cap then ((0 : Nat), false) else (p, o)) = (p, o)
  rw [if_neg h]

theorem RingAdd_avail_full (cap : Nat) (st : RingState) (v : Nat)
    (h : st.u8available = cap) :
    (RingAdd cap st v).u8available = st.u8available ∧
    (RingAdd cap st v).overflow = true := by
  unfold RingAdd
  rw [if_pos h]
  exact ⟨rfl, rfl⟩

theorem RingAdd_avail_not_full (cap : Nat) (st : RingState) (v : Nat)
    (h : ¬ st.u8available = cap) :
    (RingAdd cap st v).u8available = st.u8available + 1 ∧
    (RingAdd cap st v).overflow = false := by
  unfold RingAdd
  rw [if_neg h]
  exact ⟨rfl, rfl⟩

theorem RingGetNBytes_refuse_empty (cap : Nat) (st : RingState) (n : Nat)
    (h : st.u8available = 0 ∨ n = 0) :
    RingGetNBytes cap st n = (st, [], 0) := by
  unfold RingGetNBytes
  rw [if_pos h]

theorem RingGetNBytes_refuse_big (cap : Nat) (st : RingState) (n : Nat)
    (h1 : ¬ (st.u8available = 0 ∨ n = 0)) (h2 : cap < n) :
    RingGetNBytes cap st n = (st, [], 0) := by
  unfold RingGetNBytes
  rw [if_neg h1, if_pos h2]

theorem RingGetNBytes_drained (cap : Nat) (st : RingState) (n : Nat)
    (h1 : ¬ (st.u8available = 0 ∨ n = 0)) (h2 : ¬ cap < n) :
    (RingGetNBytes cap st n).1.u8available = 0 ∧
    (RingGetNBytes cap st n).1.overflow = false := by
  unfold RingGetNBytes
  rw [if_neg h1, if_neg h2]
  exact ⟨rfl, rfl⟩

theorem ring_invariant_aux (cap : Nat) (hcap : 0 < cap) :
    ∀ (ops : List RingOp) (st : RingState) (p : Nat) (o : Bool),
      st.u8available = min cap p → st.overflow = o →
      (ringRun cap st ops).u8available =
        min cap (ops.foldl (ringSpecStep cap) (p, o)).1 ∧
      (ringRun cap st ops).overflow = (ops.foldl (ringSpecStep cap) (p, o)).2 := by
  intro ops
  induction ops with
  | nil =>
      intro st p o h1 h2
      constructor
      · simpa [ringRun] using h1
      · simpa [ringRun] using h2
  | cons op ops ih =>
      intro st p o h1 h2
      have hrun : ringRun cap st (op :: ops) = ringRun cap (ringStep cap st op) ops := by
        simp [ringRun]
      have hspec : (op :: ops).foldl (ringSpecStep cap) (p, o) =
          ops.foldl (ringSpecStep cap) (ringSpecStep cap (p, o) op) := by
        simp
      rw [hrun, hspec]
      cases op with
      | push v =>
          have hstep : ringStep cap st (RingOp.push v) = RingAdd cap st v := rfl
          rw [hstep]
          by_cases hfull : st.u8available = cap
          · have hc := RingAdd_avail_full cap st v hfull
            have hple : cap ≤ p := by omega
            have hdec : decide (cap ≤ p) = true := decide_eq_true hple
            exact ih _ (p + 1) (decide (cap ≤ p))
              (by rw [hc.1, hfull]; omega) (by rw [hc.2, hdec])
          · have hc := RingAdd_avail_not_full cap st v hfull
            have hplt : ¬ cap ≤ p := by omega
            have hdec : decide (cap ≤ p) = false := decide_eq_false hplt
            exact ih _ (p + 1) (decide (cap ≤ p))
              (by rw [hc.1, h1]; omega) (by rw [hc.2, hdec])
      | drain n =>
          have hstep : ringStep cap st (RingOp.drain n) = (RingGetNBytes cap st n).1 := rfl
          rw [hstep]
          by_cases hz : st.u8available = 0 ∨ n = 0
          · have hget := RingGetNBytes_refuse_empty cap st n hz
            have hp : ¬ (p ≠ 0 ∧ n ≠ 0 ∧ n ≤ cap) := by
              rcases hz with hz1 | hz1
              · intro hc
                apply hc.1
                omega
              · intro hc
                exact hc.2.1 hz1
            rw [hget, ringSpecStep_drain_neg cap p o n hp]
            exact ih st p o h1 h2
          · by_cases hbig : cap < n
            · have hget := RingGetNBytes_refuse_big cap st n hz hbig
              have hp : ¬ (p ≠ 0 ∧ n ≠ 0 ∧ n ≤ cap) := by
                intro hc
                omega
              rw [hget, ringSpecStep_drain_neg cap p o n hp]
              exact ih st p o h1 h2
            · have hget := RingGetNBytes_drained cap st n hz hbig
              have hp : p ≠ 0 ∧ n ≠ 0 ∧ n ≤ cap := by
                push_neg at hz
                refine ⟨?_, hz.2, by omega⟩
                intro hp0
                apply hz.1
                omega
              rw [ringSpecStep_drain_pos cap p o n hp]
              exact ih _ 0 false (by rw [hget.1]; omega) hget.2

/-- C3 amended: for every operation sequence from a cleared ring of
positive capacity, the available count equals the number of bytes pushed
since the last successful drain capped at the capacity (a push while
full drops the oldest byte and leaves the count at the capacity), and
the overflow flag holds exactly when the latest event among pushes and
successful drains was a push issued while the ring was full: it is set
by such a push, reset by a push while not full, and reset by any
successful drain, which also empties the ring completely. -/
theorem ring_count_overflow_invariant (cap : Nat) (hcap : 0 < cap) (ops : List RingOp) :
    (ringRun cap (ringInit cap) ops).u8available = min cap (ringSpec cap ops).1 ∧
    (ringRun cap (ringInit cap) ops).overflow = (ringSpec cap ops).2 := by
  have h := ring_invariant_aux cap hcap ops (ringInit cap) 0 false
    (by simp [ringInit]) (by simp [ringInit])
  simpa [ringSpec] using h

/-- C3 amended, instantiated: capacity 4, five pushes, a partial drain of
two, one more push. -/
theorem ring_count_overflow_invariant_witness :
    (0 < 4) ∧
    ((ringRun 4 (ringInit 4) ringWitnessOps).u8available =
        min 4 (ringSpec 4 ringWitnessOps).1 ∧
     (ringRun 4 (ringInit 4) ringWitnessOps).overflow =
        (ringSpec 4 ringWitnessOps).2) :=
  ⟨by decide, ring_count_overflow_invariant 4 (by decide) ringWitnessOps⟩

theorem slaveStep_exception (st : SlaveState) (rx : List Nat)
    (hlen : 7 ≤ rx.length) (hid : rx.getD ID 0 = st.u8id)
    (hv : 0 < (validateRequest st.u16regCoils_size st.u16regHR_size rx).1) :
    slaveStep st false rx =
      some ({ st with
                u8Buffer := rx,
                u8BufferSize := 0,
                i8lastError :=
                  i8ofU8 (validateRequest st.u16regCoils_size st.u16regHR_size rx).1,
                u16errCnt := st.u16errCnt +
                  (validateRequest st.u16regCoils_size st.u16regHR_size rx).2,
                u16InCnt := st.u16InCnt + 1,
                u16OutCnt := st.u16OutCnt + 1 },
            some (sendTxBuffer
              (buildException st.u8id
                (validateRequest st.u16regCoils_size st.u16regHR_size rx).1 rx)
              EXCEPTION_SIZE)) := by
  have hto : (((validateRequest st.u16regCoils_size st.u16regHR_size rx).1 : Nat) : Int)
      ≠ ERR_TIME_OUT := by
    unfold ERR_TIME_OUT
    omega
  simp only [slaveStep, Bool.false_eq_true, if_false]
  rw [if_neg (show ¬ rx.length < 7 by omega)]
  rw [if_neg (show ¬ rx.getD ID 0 ≠ st.u8id from fun hc => hc hid)]
  rw [if_pos hv, if_pos hto]

set_option maxHeartbeats 1000000 in
theorem validateRequest_cases (cs hs : Nat) (f : List Nat) :
    validateRequest cs hs f = (ERR_BAD_CRC_u8, 1) ∨
    validateRequest cs hs f = (EXC_FUNC_CODE, 1) ∨
    validateRequest cs hs f = (EXC_ADDR_RANGE, 0) ∨
    validateRequest cs hs f = (EXC_REGS_QUANT, 0) ∨
    validateRequest cs hs f = (0, 0) := by
  simp only [validateRequest]
  split_ifs <;> simp

theorem validateRequest_errCnt_pattern (cs hs : Nat) (f : List Nat) :
    (validateRequest cs hs f).2 =
      (if (validateRequest cs hs f).1 = ERR_BAD_CRC_u8 ∨
          (validateRequest cs hs f).1 = EXC_FUNC_CODE then 1 else 0) := by
  rcases validateRequest_cases cs hs f with h | h | h | h | h <;> rw [h] <;> decide

/-- C4 counterexample: the CRC valid FC 3 request reading five registers
from a bank of four is rejected with ILLEGAL_DATA_ADDRESS, yet the
error counter of the slave keeps its prior value 7 (the increment the
claim requires never happens), while last_error does record the code. -/
theorem range_error_no_errcnt_counterexample :
    validateRequest testSlave1.u16regCoils_size testSlave1.u16regHR_size reqFC3over
      = (EXC_ADDR_RANGE, 0) ∧
    testSlave1.u16errCnt = 7 ∧
    (slaveStep testSlave1 false reqFC3over).map
        (fun r => (r.1.u16errCnt, r.1.i8lastError)) = some (7, 2) := by
  refine ⟨by decide, by decide, by decide⟩

/-- C4 amended: on a CRC screened slave iteration whose validateRequest
result is nonzero, the slave records the error code in last_error (as
the int8 reading of the uint8 code) and u16errCnt grows by exactly the
number of increments validateRequest itself performed, which is one for
BAD_CRC and ILLEGAL_FUNCTION results and zero for the
ILLEGAL_DATA_ADDRESS and ILLEGAL_DATA_VALUE range failures. -/
theorem slave_error_path_amended (st : SlaveState) (rx : List Nat)
    (hlen : 7 ≤ rx.length) (hid : rx.getD ID 0 = st.u8id)
    (hv : 0 < (validateRequest st.u16regCoils_size st.u16regHR_size rx).1) :
    slaveStep st false rx =
      some ({ st with
                u8Buffer := rx,
                u8BufferSize := 0,
                i8lastError :=
                  i8ofU8 (validateRequest st.u16regCoils_size st.u16regHR_size rx).1,
                u16errCnt := st.u16errCnt +
                  (validateRequest st.u16regCoils_size st.u16regHR_size rx).2,
                u16InCnt := st.u16InCnt + 1,
                u16OutCnt := st.u16OutCnt + 1 },
            some (sendTxBuffer
              (buildException st.u8id
                (validateRequest st.u16regCoils_size st.u16regHR_size rx).1 rx)
              EXCEPTION_SIZE)) ∧
    (validateRequest st.u16regCoils_size st.u16regHR_size rx).2 =
      (if (validateRequest st.u16regCoils_size st.u16regHR_size rx).1 = ERR_BAD_CRC_u8 ∨
          (validateRequest st.u16regCoils_size st.u16regHR_size rx).1 = EXC_FUNC_CODE
       then 1 else 0) :=
  ⟨slaveStep_exception st rx hlen hid hv,
   validateRequest_errCnt_pattern st.u16regCoils_size st.u16regHR_size rx⟩

/-- C4 amended, instantiated at the FC 3 range failure fixture. -/
theorem slave_error_path_amended_witness :
    (7 ≤ reqFC3over.length ∧ reqFC3over.getD ID 0 = testSlave1.u8id ∧
     0 < (validateRequest testSlave1.u16regCoils_size testSlave1.u16regHR_size
            reqFC3over).1) ∧
    (slaveStep testSlave1 false reqFC3over =
      some ({ testSlave1 with
                u8Buffer := reqFC3over,
                u8BufferSize := 0,
                i8lastError :=
                  i8ofU8 (validateRequest testSlave1.u16regCoils_size
                    testSlave1.u16regHR_size reqFC3over).1,
                u16errCnt := testSlave1.u16errCnt +
                  (validateRequest testSlave1.u16regCoils_size
                    testSlave1.u16regHR_size reqFC3over).2,
                u16InCnt := testSlave1.u16InCnt + 1,
                u16OutCnt := testSlave1.u16OutCnt + 1 },
            some (sendTxBuffer
              (buildException testSlave1.u8id
                (validateRequest testSlave1.u16regCoils_size
                  testSlave1.u16regHR_size reqFC3over).1 reqFC3over)
              EXCEPTION_SIZE)) ∧
     (validateRequest testSlave1.u16regCoils_size testSlave1.u16regHR_size
        reqFC3over).2 =
      (if (validateRequest testSlave1.u16regCoils_size testSlave1.u16regHR_size
             reqFC3over).1 = ERR_BAD_CRC_u8 ∨
          (validateRequest testSlave1.u16regCoils_size testSlave1.u16regHR_size
             reqFC3over).1 = EXC_FUNC_CODE
       then 1 else 0)) :=
  ⟨⟨by decide, by decide, by decide⟩,
   slave_error_path_amended testSlave1 reqFC3over (by decide) (by decide) (by decide)⟩

/-- C5 counterexample: the CRC valid request whose function byte is 0x85
fails validation with ILLEGAL_FUNCTION (not a CRC or size error), and
the transmitted exception frame carries the function byte
(0x85 + 0x80) mod 256 = 0x05, not 0x85 OR 0x80 = 0x85 as the claim
requires. -/
theorem exception_funcbyte_counterexample :
    (validateRequest testSlave1.u16regCoils_size testSlave1.u16regHR_size
       reqBadFunc).1 = EXC_FUNC_CODE ∧
    (slaveStep testSlave1 false reqBadFunc).map
        (fun r => r.2.map (fun w => w.getD FUNC 0)) = some (some 0x05) ∧
    (0x85 ||| 0x80) = 0x85 := by
  refine ⟨by decide, by decide, by decide⟩

theorem buildException_take (u8id exc : Nat) (f : List Nat) (h : 3 ≤ f.length) :
    (buildException u8id exc f).take 3 =
      [u8id, (f.getD FUNC 0 + 0x80) % 256, exc] := by
  rcases f with _ | ⟨a, _ | ⟨b, _ | ⟨c, t⟩⟩⟩
  · simp at h
  · simp at h
  · simp at h
  · simp [buildException, ID, FUNC]

theorem buildException_length (u8id exc : Nat) (f : List Nat) :
    (buildException u8id exc f).length = f.length := by
  simp [buildException]

/-- C5 amended: on any slave validation failure other than a CRC or size
error (ILLEGAL_FUNCTION, ILLEGAL_DATA_ADDRESS or ILLEGAL_DATA_VALUE)
the transmitted frame keeps the station id in its ID byte, carries the
received function byte plus 0x80 reduced modulo 256 (which agrees with
OR 0x80 exactly when the received byte is below 0x80), carries the
exception code at offset 2, is built with internal length
EXCEPTION_SIZE = 3 before the CRC, and is 5 bytes long on the wire. -/
theorem exception_frame_amended (st : SlaveState) (rx : List Nat)
    (hlen : 7 ≤ rx.length) (hid : rx.getD ID 0 = st.u8id)
    (hv : (validateRequest st.u16regCoils_size st.u16regHR_size rx).1 = EXC_FUNC_CODE ∨
          (validateRequest st.u16regCoils_size st.u16regHR_size rx).1 = EXC_ADDR_RANGE ∨
          (validateRequest st.u16regCoils_size st.u16regHR_size rx).1 = EXC_REGS_QUANT) :
    (slaveStep st false rx).map (fun r => r.2.map (fun w => (w.take 3, w.length)))
      = some (some ([st.u8id, (rx.getD FUNC 0 + 0x80) % 256,
                     (validateRequest st.u16regCoils_size st.u16regHR_size rx).1],
                    5)) := by
  have hv0 : 0 < (validateRequest st.u16regCoils_size st.u16regHR_size rx).1 := by
    rcases hv with h | h | h <;> rw [h] <;> decide
  rw [slaveStep_exception st rx hlen hid hv0]
  have htk : (buildException st.u8id
      (validateRequest st.u16regCoils_size st.u16regHR_size rx).1 rx).take 3 =
      [st.u8id, (rx.getD FUNC 0 + 0x80) % 256,
       (validateRequest st.u16regCoils_size st.u16regHR_size rx).1] :=
    buildException_take _ _ rx (by omega)
  have hbl : 3 ≤ (buildException st.u8id
      (validateRequest st.u16regCoils_size st.u16regHR_size rx).1 rx).length := by
    rw [buildException_length]
    omega
  simp only [sendTxBuffer, EXCEPTION_SIZE]
  rw [htk]
  simp

/-- C5 amended, instantiated at the ILLEGAL_FUNCTION fixture with
function byte 0x85. -/
theorem exception_frame_amended_witness :
    (7 ≤ reqBadFunc.length ∧ reqBadFunc.getD ID 0 = testSlave1.u8id ∧
     ((validateRequest testSlave1.u16regCoils_size testSlave1.u16regHR_size
         reqBadFunc).1 = EXC_FUNC_CODE ∨
      (validateRequest testSlave1.u16regCoils_size testSlave1.u16regHR_size
         reqBadFunc).1 = EXC_ADDR_RANGE ∨
      (validateRequest testSlave1.u16regCoils_size testSlave1.u16regHR_size
         reqBadFunc).1 = EXC_REGS_QUANT)) ∧
    (slaveStep testSlave1 false reqBadFunc).map
        (fun r => r.2.map (fun w => (w.take 3, w.length)))
      = some (some ([testSlave1.u8id, (reqBadFunc.getD FUNC 0 + 0x80) % 256,
                     (validateRequest testSlave1.u16regCoils_size
                        testSlave1.u16regHR_size reqBadFunc).1], 5)) :=
  ⟨⟨by decide, by decide, by decide⟩,
   exception_frame_amended testSlave1 reqBadFunc (by decide) (by decide)
     (by decide)⟩

/-- C6: when the master worker wakes with the nonzero TIMEOUT
notification value posted by the response timeout timer while in
COM_WAITING, it returns to COM_IDLE, records TIMEOUT in last_error,
increments err_count by exactly one, and notifies the originator task
with TIMEOUT. -/
theorem master_timeout_spec (st : MasterState) (ov : Bool) (rx : List Nat)
    (_h : st.i8state = COM_WAITING) :
    masterStep st ERR_TIME_OUT_u32 ov rx =
      ({ st with i8state := COM_IDLE, i8lastError := ERR_TIME_OUT,
                 u16errCnt := st.u16errCnt + 1 }, some ERR_TIME_OUT) := by
  simp only [masterStep]
  rw [if_pos (show ERR_TIME_OUT_u32 ≠ 0 by decide)]

/-- C6, instantiated at a waiting master fixture. -/
theorem master_timeout_spec_witness :
    (testMaster0.i8state = COM_WAITING) ∧
    masterStep testMaster0 ERR_TIME_OUT_u32 false [] =
      ({ testMaster0 with i8state := COM_IDLE, i8lastError := ERR_TIME_OUT,
                          u16errCnt := testMaster0.u16errCnt + 1 },
       some ERR_TIME_OUT) :=
  ⟨by decide, master_timeout_spec testMaster0 false [] (by decide)⟩

/-- C8: the CRC valid FC 2 request passes validation, but the dispatch
hands process_FC1 the discrete input selector, for which the function
never initializes its register source pointer; the read of the packing
loop is undefined behaviour (modelled none), so the response bits do
not come from any discrete input bank. -/
theorem fc2_reads_uninitialized :
    validateRequest testSlave1.u16regCoils_size testSlave1.u16regHR_size reqFC2one
      = (0, 0) ∧
    DB_INPUT_COILS ≠ DB_COILS ∧
    process_FC1 DB_INPUT_COILS testSlave1.regsCoils reqFC2one = none ∧
    slaveStep testSlave1 false reqFC2one = none := by
  refine ⟨by decide, by decide, by decide, by decide⟩

/-- C9 counterexample: a frame of length 8 addressed to station 0x22
reaches a slave with station id 0x11 whose recorded last_error is
BAD_SIZE; the slave transmits nothing, but last_error is reset to 0 by
the start of the iteration instead of being left unchanged as the claim
requires. -/
theorem wrong_id_lasterror_counterexample :
    testSlave0.i8lastError = ERR_BAD_SIZE ∧
    ERR_BAD_SIZE ≠ 0 ∧
    wrongIdFrame.getD ID 0 ≠ testSlave0.u8id ∧
    (slaveStep testSlave0 false wrongIdFrame).map
      (fun r => (r.1.i8lastError, r.2)) = some (0, none) := by
  refine ⟨by decide, by decide, by decide, by decide⟩

/-- C9 amended: a received frame of length at least 7 whose ID byte
differs from the station id is skipped: nothing is transmitted, the
register banks, err_count and out_count are unchanged, in_count is
incremented by the drain, and last_error ends the iteration reset to 0
(the loop clears it on entry), rather than keeping its previous
value. -/
theorem wrong_id_skip_amended (st : SlaveState) (rx : List Nat)
    (hlen : 7 ≤ rx.length) (hid : rx.getD ID 0 ≠ st.u8id) :
    slaveStep st false rx =
      some ({ st with i8lastError := 0, u8Buffer := rx,
                      u8BufferSize := rx.length,
                      u16InCnt := st.u16InCnt + 1 }, none) := by
  simp only [slaveStep, Bool.false_eq_true, if_false]
  rw [if_neg (show ¬ rx.length < 7 by omega)]
  rw [if_pos hid]

/-- C9 amended, instantiated at the foreign frame fixture. -/
theorem wrong_id_skip_amended_witness :
    (7 ≤ wrongIdFrame.length ∧ wrongIdFrame.getD ID 0 ≠ testSlave0.u8id) ∧
    slaveStep testSlave0 false wrongIdFrame =
      some ({ testSlave0 with i8lastError := 0, u8Buffer := wrongIdFrame,
                              u8BufferSize := wrongIdFrame.length,
                              u16InCnt := testSlave0.u16InCnt + 1 }, none) :=
  ⟨⟨by decide, by decide⟩,
   wrong_id_skip_amended testSlave0 wrongIdFrame (by decide) (by decide)⟩

/-- C10: validateAnswer never consults the ID byte: for every station
byte idb and every CRC consistent response frame idb :: rest whose
function byte is one of the eight supported codes (hence has bit 0x80
clear), validateAnswer returns 0, and the master loop parses the
payload into the bound caller buffers and notifies the originator with
OK_QUERY, returning to COM_IDLE, regardless of idb. -/
theorem validateAnswer_ignores_id (idb : Nat) (rest : List Nat) (st : MasterState)
    (hlen : 6 ≤ (idb :: rest).length)
    (hcrc : calcCRC ((idb :: rest).take ((idb :: rest).length - 2)) =
      (idb :: rest).getD ((idb :: rest).length - 2) 0 * 256 +
        (idb :: rest).getD ((idb :: rest).length - 1) 0)
    (hfc : (idb :: rest).getD FUNC 0 ∈ fctsupported) :
    validateAnswer (idb :: rest) = (0, 0) ∧
    (masterStep st 0 false (idb :: rest)).2 = some ERR_OK_QUERY ∧
    (masterStep st 0 false (idb :: rest)).1.i8state = COM_IDLE ∧
    (masterStep st 0 false (idb :: rest)).1.regsHR =
      (masterDispatch (idb :: rest) st.regsCoils st.regsHR).2 := by
  have hva : validateAnswer (idb :: rest) = (0, 0) := by
    simp only [fctsupported, MB_FC_READ_COILS, MB_FC_READ_DISCRETE_INPUT,
      MB_FC_READ_REGISTERS, MB_FC_READ_INPUT_REGISTER, MB_FC_WRITE_COIL,
      MB_FC_WRITE_REGISTER, MB_FC_WRITE_MULTIPLE_COILS,
      MB_FC_WRITE_MULTIPLE_REGISTERS, List.mem_cons, List.mem_singleton,
      List.not_mem_nil, or_false] at hfc
    simp only [validateAnswer]
    rw [if_neg (show ¬ calcCRC ((idb :: rest).take ((idb :: rest).length - 2)) ≠
        (idb :: rest).getD ((idb :: rest).length - 2) 0 * 256 +
          (idb :: rest).getD ((idb :: rest).length - 1) 0 from fun hc => hc hcrc)]
    rcases hfc with h | h | h | h | h | h | h | h <;>
      rw [h] <;>
      rw [if_neg (by decide), if_neg (by decide)]
  have hms : masterStep st 0 false (idb :: rest) =
      ({ st with u8Buffer := idb :: rest, u8BufferSize := (idb :: rest).length,
                 u16InCnt := st.u16InCnt + 1,
                 regsCoils := (masterDispatch (idb :: rest) st.regsCoils st.regsHR).1,
                 regsHR := (masterDispatch (idb :: rest) st.regsCoils st.regsHR).2,
                 i8state := COM_IDLE, i8lastError := 0 }, some ERR_OK_QUERY) := by
    simp only [masterStep, Bool.false_eq_true, if_false]
    rw [if_neg (show ¬ ((0 : Nat) ≠ 0) by decide)]
    rw [if_neg (show ¬ (idb :: rest).length < 6 by omega)]
    rw [hva]
    simp
  refine ⟨hva, ?_, ?_, ?_⟩ <;> rw [hms]

/-- C10, instantiated at the spec section 8 scenario 5 response with one
register value 0x002A. -/
theorem validateAnswer_ignores_id_witness :
    (6 ≤ ([0x11, 0x03, 0x02, 0x00, 0x2A, 0xF8, 0x58] : List Nat).length ∧
     ([0x11, 0x03, 0x02, 0x00, 0x2A, 0xF8, 0x58] : List Nat).getD FUNC 0
       ∈ fctsupported) ∧
    (validateAnswer [0x11, 0x03, 0x02, 0x00, 0x2A, 0xF8, 0x58] = (0, 0) ∧
     (masterStep testMaster0 0 false [0x11, 0x03, 0x02, 0x00, 0x2A, 0xF8, 0x58]).2
       = some ERR_OK_QUERY ∧
     (masterStep testMaster0 0 false [0x11, 0x03, 0x02, 0x00, 0x2A, 0xF8, 0x58]).1.i8state
       = COM_IDLE ∧
     (masterStep testMaster0 0 false [0x11, 0x03, 0x02, 0x00, 0x2A, 0xF8, 0x58]).1.regsHR
       = (masterDispatch [0x11, 0x03, 0x02, 0x00, 0x2A, 0xF8, 0x58]
            testMaster0.regsCoils testMaster0.regsHR).2) :=
  ⟨⟨by decide, by decide⟩,
   validateAnswer_ignores_id 0x11 [0x03, 0x02, 0x00, 0x2A, 0xF8, 0x58] testMaster0
     (by decide) (by decide) (by decide)⟩

theorem regPairs_length (regs : List Nat) :
    ∀ (n s : Nat), (regPairs regs s n).length = 2 * n := by
  intro n
  induction n with
  | zero => intro s; rfl
  | succ n ih =>
      intro s
      show (_ :: _ :: regPairs regs (s + 1) n).length = 2 * (n + 1)
      simp [ih]
      omega

theorem regPairs_getD (regs : List Nat) :
    ∀ (n s j : Nat), j < n →
      (regPairs regs s n).getD (2 * j) 0 = highByte (regs.getD (s + j) 0) ∧
      (regPairs regs s n).getD (2 * j + 1) 0 = lowByte (regs.getD (s + j) 0) := by
  intro n
  induction n with
  | zero => intro s j hj; omega
  | succ n ih =>
      intro s j hj
      cases j with
      | zero => exact ⟨rfl, rfl⟩
      | succ j =>
          have hidx : s + 1 + j = s + (j + 1) := by omega
          constructor
          · have e : 2 * (j + 1) = 2 * j + 1 + 1 := by ring
            rw [e]
            show (regPairs regs (s + 1) n).getD (2 * j) 0 = _
            rw [(ih (s + 1) j (by omega)).1, hidx]
          · have e : 2 * (j + 1) + 1 = (2 * j + 1) + 1 + 1 := by ring
            rw [e]
            show (regPairs regs (s + 1) n).getD (2 * j + 1) 0 = _
            rw [(ih (s + 1) j (by omega)).2, hidx]

theorem foldl_range_set_length (g : Nat → Nat) (m : Nat) (l : List Nat) :
    ((List.range m).foldl (fun acc i => acc.set i (g i)) l).length = l.length := by
  induction m with
  | zero => rfl
  | succ m ih =>
      rw [List.range_succ, List.foldl_append]
      simp only [List.foldl_cons, List.foldl_nil, List.length_set]
      exact ih

theorem foldl_range_set_getD (g : Nat → Nat) :
    ∀ (m : Nat) (l : List Nat) (j : Nat), j < m → j < l.length →
      ((List.range m).foldl (fun acc i => acc.set i (g i)) l).getD j 0 = g j := by
  intro m
  induction m with
  | zero => intro l j h1 h2; omega
  | succ m ih =>
      intro l j h1 h2
      rw [List.range_succ, List.foldl_append]
      simp only [List.foldl_cons, List.foldl_nil]
      have hlen : ((List.range m).foldl (fun acc i => acc.set i (g i)) l).length
          = l.length := foldl_range_set_length g m l
      by_cases hj : j = m
      · subst hj
        rw [List.getD_eq_getElem _ _ (by rw [List.length_set, hlen]; omega)]
        exact List.getElem_set_self _
      · have hjm : j < m := by omega
        rw [List.getD_eq_getElem _ _ (by rw [List.length_set, hlen]; omega)]
        rw [List.getElem_set_ne (by omega)]
        rw [← List.getD_eq_getElem _ 0 (by rw [hlen]; omega)]
        exact ih l j hjm h2

theorem word_highByte_lowByte (r : Nat) (h : r < 65536) :
    word (highByte r) (lowByte r) = r := by
  unfold word highByte lowByte
  rw [Nat.shiftRight_eq_div_pow]
  have h8 : (2 : Nat) ^ 8 = 256 := by norm_num
  rw [h8]
  omega

/-- C7: encoding an FC 3 response with the slave handler process_FC3 and
then decoding the transmitted wire frame with the master parser get_FC3
writes the original register values back bit exact, for every quantity
in [1, 125], every start address expressible in the two address bytes,
every holding bank containing the addressed range, and every caller
buffer with room for the quantity. -/
theorem fc3_roundtrip (bank dest : List Nat) (idb aH aL qty : Nat)
    (hq1 : 1 ≤ qty) (hq2 : qty ≤ 125)
    (hbank : word aH aL + qty ≤ bank.length)
    (hdest : qty ≤ dest.length)
    (hvals : ∀ x ∈ bank, x < 65536) :
    (process_FC3 DB_HOLDING_REGISTER bank []
        [idb, MB_FC_READ_REGISTERS, aH, aL, 0, qty]).map
      (fun r => (get_FC3 r.1 dest).take qty)
      = some ((bank.drop (word aH aL)).take qty) := by
  have hq256 : word 0 qty % 256 = qty := by
    unfold word
    omega
  have hpf : process_FC3 DB_HOLDING_REGISTER bank []
      [idb, MB_FC_READ_REGISTERS, aH, aL, 0, qty] =
      some (sendTxBuffer
        ([idb, MB_FC_READ_REGISTERS, word 0 qty % 256 * 2 % 256] ++
          regPairs bank (word aH aL) (word 0 qty % 256))
        (3 + 2 * (word 0 qty % 256)),
        (3 + 2 * (word 0 qty % 256) + 2) % 256) := rfl
  rw [hpf, hq256]
  have h2q : qty * 2 % 256 = 2 * qty := by omega
  rw [h2q]
  set pp := regPairs bank (word aH aL) qty with hpp
  have hppl : pp.length = 2 * qty := by
    rw [hpp]
    exact regPairs_length bank qty (word aH aL)
  have hlenA : (([idb, MB_FC_READ_REGISTERS, 2 * qty] : List Nat) ++ pp).length
      = 3 + 2 * qty := by
    simp [hppl]
    omega
  have hwire : sendTxBuffer ([idb, MB_FC_READ_REGISTERS, 2 * qty] ++ pp)
      (3 + 2 * qty) =
      (([idb, MB_FC_READ_REGISTERS, 2 * qty] : List Nat) ++ pp) ++
        [calcCRC (([idb, MB_FC_READ_REGISTERS, 2 * qty] : List Nat) ++ pp) >>> 8,
         calcCRC (([idb, MB_FC_READ_REGISTERS, 2 * qty] : List Nat) ++ pp) % 256] := by
    unfold sendTxBuffer
    rw [← hlenA, List.take_length]
  rw [hwire]
  refine congrArg some ?_
  show (get_FC3 (([idb, MB_FC_READ_REGISTERS, 2 * qty] ++
      regPairs bank (word aH aL) qty) ++
      [calcCRC ([idb, MB_FC_READ_REGISTERS, 2 * qty] ++
         regPairs bank (word aH aL) qty) >>> 8,
       calcCRC ([idb, MB_FC_READ_REGISTERS, 2 * qty] ++
         regPairs bank (word aH aL) qty) % 256]) dest).take qty
    = (bank.drop (word aH aL)).take qty
  set cc := [calcCRC (([idb, MB_FC_READ_REGISTERS, 2 * qty] : List Nat) ++ pp) >>> 8,
             calcCRC (([idb, MB_FC_READ_REGISTERS, 2 * qty] : List Nat) ++ pp) % 256]
    with hcc
  have hw2 : ((([idb, MB_FC_READ_REGISTERS, 2 * qty] : List Nat) ++ pp) ++ cc).getD 2 0
      = 2 * qty := by
    rw [List.getD_append _ _ _ _ (by rw [hlenA]; omega),
        List.getD_append _ _ _ _ (by simp)]
    rfl
  have hwpair : ∀ i, i < qty →
      ((([idb, MB_FC_READ_REGISTERS, 2 * qty] : List Nat) ++ pp) ++ cc).getD
          (3 + 2 * i) 0 = highByte (bank.getD (word aH aL + i) 0) ∧
      ((([idb, MB_FC_READ_REGISTERS, 2 * qty] : List Nat) ++ pp) ++ cc).getD
          (3 + 2 * i + 1) 0 = lowByte (bank.getD (word aH aL + i) 0) := by
    intro i hi
    have e1 : 3 + 2 * i - ([idb, MB_FC_READ_REGISTERS, 2 * qty] : List Nat).length
        = 2 * i := by
      simp only [List.length_cons, List.length_nil]
      omega
    have e2 : 3 + 2 * i + 1 - ([idb, MB_FC_READ_REGISTERS, 2 * qty] : List Nat).length
        = 2 * i + 1 := by
      simp only [List.length_cons, List.length_nil]
      omega
    have e3 : ([idb, MB_FC_READ_REGISTERS, 2 * qty] : List Nat).length ≤ 3 + 2 * i := by
      simp only [List.length_cons, List.length_nil]
      omega
    have e4 : ([idb, MB_FC_READ_REGISTERS, 2 * qty] : List Nat).length
        ≤ 3 + 2 * i + 1 := by
      simp only [List.length_cons, List.length_nil]
      omega
    constructor
    · rw [List.getD_append _ _ _ _ (by rw [hlenA]; omega),
          List.getD_append_right _ _ _ _ e3, e1, hpp,
          (regPairs_getD bank qty (word aH aL) i hi).1]
    · rw [List.getD_append _ _ _ _ (by rw [hlenA]; omega),
          List.getD_append_right _ _ _ _ e4, e2, hpp,
          (regPairs_getD bank qty (word aH aL) i hi).2]
  have hfold : get_FC3 ((([idb, MB_FC_READ_REGISTERS, 2 * qty] : List Nat) ++ pp) ++ cc)
      dest =
      (List.range qty).foldl
        (fun regs i => regs.set i
          (word (((([idb, MB_FC_READ_REGISTERS, 2 * qty] : List Nat) ++ pp) ++ cc).getD
                   (3 + 2 * i) 0)
                (((([idb, MB_FC_READ_REGISTERS, 2 * qty] : List Nat) ++ pp) ++ cc).getD
                   (3 + 2 * i + 1) 0))) dest := by
    unfold get_FC3
    rw [hw2]
    have e : 2 * qty / 2 = qty := by omega
    rw [e]
  rw [hfold]
  have hglen : ((List.range qty).foldl
      (fun regs i => regs.set i
        (word (((([idb, MB_FC_READ_REGISTERS, 2 * qty] : List Nat) ++ pp) ++ cc).getD
                 (3 + 2 * i) 0)
              (((([idb, MB_FC_READ_REGISTERS, 2 * qty] : List Nat) ++ pp) ++ cc).getD
                 (3 + 2 * i + 1) 0))) dest).length = dest.length :=
    foldl_range_set_length _ qty dest
  apply List.ext_getElem
  · rw [List.length_take, hglen, List.length_take, List.length_drop]
    omega
  · intro i h1 h2
    have hiq : i < qty := by
      rw [List.length_take] at h1
      omega
    rw [List.getElem_take, List.getElem_take, List.getElem_drop]
    rw [← List.getD_eq_getElem _ 0 (by rw [hglen]; omega)]
    rw [foldl_range_set_getD _ qty dest i hiq (by omega)]
    rw [(hwpair i hiq).1, (hwpair i hiq).2]
    have hmem : bank.getD (word aH aL + i) 0 < 65536 := by
      rw [List.getD_eq_getElem _ _ (by omega)]
      exact hvals _ (List.getElem_mem _)
    rw [word_highByte_lowByte _ hmem]
    rw [List.getD_eq_getElem _ _ (by omega)]

/-- C7, instantiated: bank [10, 258, 65535] read in full and decoded into
a three word caller buffer. -/
theorem fc3_roundtrip_witness :
    (1 ≤ 3 ∧ (3 : Nat) ≤ 125 ∧
     word 0 0 + 3 ≤ ([10, 258, 65535] : List Nat).length ∧
     (3 : Nat) ≤ ([0, 0, 0] : List Nat).length ∧
     (∀ x ∈ ([10, 258, 65535] : List Nat), x < 65536)) ∧
    (process_FC3 DB_HOLDING_REGISTER [10, 258, 65535] []
        [0x11, MB_FC_READ_REGISTERS, 0, 0, 0, 3]).map
      (fun r => (get_FC3 r.1 [0, 0, 0]).take 3)
      = some ((([10, 258, 65535] : List Nat).drop (word 0 0)).take 3) :=
  ⟨⟨by decide, by decide, by decide, by decide, by decide⟩,
   fc3_roundtrip [10, 258, 65535] [0, 0, 0] 0x11 0 0 3 (by decide) (by decide)
     (by decide) (by decide) (by decide)⟩

end Modbus
